import Mathlib

/-!
Shallow embedding of `thunderbird/processes/wps_generate_climos.py`
(class `GenerateClimos`): the dry-run inspector `dry_run_info`, the
output aggregator `collect_climo_files` / `build_meta_link`, the request
interpreter `collect_args` and the request handler `_handler`.

External collaborators (the `CFDataset` constructor, attribute accessors
and `create_climo_files`) are modelled as data supplied by an `Env`
record: each fallible access is an `Except Err` value, where `Err` holds
the Python exception class name and message.  Python `float` progress
arithmetic is modelled with `Rat`; for the reachable matched-period
counts (1..6) every quantity the handler computes is a small dyadic
rational, where IEEE-754 double arithmetic is exact, so the rational
model agrees with the source bit for bit.  Python's `/` raises
`ZeroDivisionError` on a zero divisor; this is embedded explicitly as
`pyDiv`.
-/

/-- A Python exception, reduced to what the source renders: the class
name (`e.__class__.__name__`) and the message (`str(e)`). -/
structure Err where
  kind : String
  msg : String
deriving Repr, DecidableEq

/-- Python `a / b` on numbers: raises `ZeroDivisionError` when `b = 0`. -/
def pyDiv (a b : Rat) : Except Err Rat :=
  if b = 0 then .error ⟨"ZeroDivisionError", "division by zero"⟩ else .ok (a / b)

/-- Model of an open `CFDataset` handle.  `climo_periods` is the dict
mapping period label to a `(t_start, t_end)` pair (an association list,
in dict iteration order, keys unique).  `metadata` models
`getattr(input_file.metadata, attr)`: per-attribute results, each
independently failable.  The three dataset-level accessors the dry run
reads are modelled as failable values whose rendered form is a string. -/
structure CFDataset where
  climo_periods : List (String × (String × String))
  metadata : List (String × Except Err String)
  dependent_varnames : Except Err String
  time_resolution : Except Err String
  is_multi_year_mean : Except Err String

/-- `getattr(input_file.metadata, attr)`: a missing attribute raises
`AttributeError`; a present one yields its (failable) value. -/
def metaLookup (ds : CFDataset) (attr : String) : Except Err String :=
  match ds.metadata.lookup attr with
  | some r => r
  | none => .error ⟨"AttributeError", attr⟩

/-- The five provenance attributes of the dry-run report, in source
order: `"project institution model emissions run".split()`. -/
def provenanceAttrs : List String :=
  ["project", "institution", "model", "emissions", "run"]

/-- One provenance line of the dry-run report: on success
`f"{attr}: {value}\n"`, on failure
`f"{attr}: {e.__class__.__name__}: {e}\n"` (the lookup is inside its own
`try`/`except`). -/
def attrLine (attr : String) (r : Except Err String) : String :=
  match r with
  | .ok v => attr ++ ": " ++ v ++ "\n"
  | .error e => attr ++ ": " ++ e.kind ++ ": " ++ e.msg ++ "\n"

/-- The matched periods `input_file.climo_periods.keys() & climo`, as the
catalog keys (dict order) restricted to the requested set. -/
def matchedPeriods (ds : CFDataset) (climo : List String) : List String :=
  (ds.climo_periods.map Prod.fst).filter (fun p => climo.contains p)

/-- `GenerateClimos.dry_run_info`.  The dataset open is guarded: an open
failure is rendered inline and the report still returned.  The five
provenance lookups are each guarded.  The `dependent_varnames()`,
`time_resolution` and `is_multi_year_mean` accesses are NOT guarded in
the source: a failure there propagates out of `dry_run_info`, which is
why the result type is `Except Err String`.  (The Python `set` rendering
of the matched periods is modelled as a comma-separated join.) -/
def dry_run_info (openResult : Except Err CFDataset) (filepath : String)
    (climo : List String) : Except Err String :=
  let report := "Dry Run\n" ++ "File: " ++ filepath ++ "\n"
  match openResult with
  | .error e => .ok (report ++ e.kind ++ ": " ++ e.msg ++ "\n")
  | .ok input_file =>
    let periods := matchedPeriods input_file climo
    let report := report ++ "climo_periods: " ++ String.intercalate ", " periods ++ "\n"
    let report := report ++
      String.join (provenanceAttrs.map fun attr => attrLine attr (metaLookup input_file attr))
    match input_file.dependent_varnames with
    | .error e => .error e
    | .ok dv =>
      let report := report ++ "dependent_varnames: " ++ dv ++ "\n"
      match input_file.time_resolution with
      | .error e => .error e
      | .ok tr =>
        let report := report ++ "time_resolution: " ++ tr ++ "\n"
        match input_file.is_multi_year_mean with
        | .error e => .error e
        | .ok mym => .ok (report ++ "is_multi_year_mean: " ++ mym ++ "\n")

/-- `GenerateClimos.collect_climo_files`: the working-directory entries
whose name ends with `.nc`. -/
def collect_climo_files (workdirListing : List String) : List String :=
  workdirListing.filter (fun file => file.endsWith ".nc")

/-- One entry of the MetaLink manifest: a `MetaFile(file, 'Climatology',
fmt=FORMATS.NETCDF)` whose `file` attribute is `os.path.join(workdir,
file)`. -/
structure MetaFile where
  label : String
  category : String
  format : String
  path : String
deriving Repr, DecidableEq

/-- The MetaLink4 document `("outputs", "Output of netCDF climo files",
workdir=...)` with one `MetaFile` appended per climo file.  The `.xml`
serialization is modelled as the document itself. -/
structure MetaLink where
  identity : String
  description : String
  workdir : String
  files : List MetaFile
deriving Repr, DecidableEq

/-- `GenerateClimos.build_meta_link`. -/
def build_meta_link (workdir : String) (climo_files : List String) : MetaLink :=
  { identity := "outputs"
    description := "Output of netCDF climo files"
    workdir := workdir
    files := climo_files.map fun file =>
      { label := file
        category := "Climatology"
        format := "NETCDF"
        path := workdir ++ "/" ++ file } }

/-- The typed request after transport-layer validation: `climo` and
`resolutions` are the multi-valued inputs (their set character is their
membership), the booleans and operation are the literal inputs, and
`filepath` is `request.inputs["dataset"][0].url`. -/
structure Request where
  climo : List String
  operation : String
  resolutions : List String
  convert_longitudes : Bool
  split_vars : Bool
  split_intervals : Bool
  dry_run : Bool
  filepath : String

/-- `GenerateClimos.collect_args`: extracts the inputs in source order
`(climo, resolutions, convert_longitudes, split_vars, split_intervals,
dry_run, operation)`. -/
def collect_args (r : Request) :
    List String × List String × Bool × Bool × Bool × Bool × String :=
  (r.climo, r.resolutions, r.convert_longitudes, r.split_vars,
    r.split_intervals, r.dry_run, r.operation)

/-- One invocation of the computation collaborator
`create_climo_files(self.workdir, input_file, operation, *t_range,
convert_longitudes=..., split_vars=..., output_resolutions=...)`,
recording exactly the arguments the source passes. -/
structure Call where
  workdir : String
  dataset : CFDataset
  operation : String
  t_start : String
  t_end : String
  convert_longitudes : Bool
  split_vars : Bool
  output_resolutions : List String

/-- A named output slot of the response: WPS declares it (`unset`), the
handler may `del` it (`removed`) or assign its `.data` (`set`). -/
inductive OutSlot (α : Type) where
  | unset : OutSlot α
  | removed : OutSlot α
  | set : α → OutSlot α
deriving Repr, DecidableEq

/-- The response state: the two named outputs plus the trace of
`update_status(message, percent)` calls (`none` when the call passes no
percentage, as at `update_status(f"Processing {filepath}")`). -/
structure Response where
  output : OutSlot MetaLink
  dry_output : OutSlot String
  updates : List (String × Option Rat)

/-- Append one `update_status` call to the response trace. -/
def Response.addUpdate (r : Response) (msg : String) (p : Option Rat) : Response :=
  { r with updates := r.updates ++ [(msg, p)] }

/-- The collaborator behavior a single request runs against:
the outcome of `CFDataset(filepath)`, the effect of each
`create_climo_files` call (the file names it writes into the working
directory, or the exception it raises), the files already present in the
working directory, and the working-directory path. -/
structure Env where
  openResult : Except Err CFDataset
  create : Call → Except Err (List String)
  workdirFiles : List String
  workdir : String

/-- The mutable state threaded through the processing loop. -/
structure St where
  progress : Rat
  remaining : Nat
  resp : Response
  calls : List Call
  files : List String

/-- The argument record of the `create_climo_files` call for one period
(the time range is resolved by `input_file.climo_periods[period]`). -/
def callFor (workdir : String) (ds : CFDataset) (operation : String)
    (cl sv : Bool) (res : List String) (period : String) : Call :=
  let t_range := (ds.climo_periods.lookup period).getD ("", "")
  { workdir := workdir, dataset := ds, operation := operation,
    t_start := t_range.1, t_end := t_range.2,
    convert_longitudes := cl, split_vars := sv, output_resolutions := res }

/-- The `for period in input_file.climo_periods.keys() & climo:` loop of
`_handler`: per period, advance progress by 1 and report, resolve the
time range (a missing key would raise `KeyError`), invoke the
collaborator (its exception propagates), advance progress by the
proportional increment, decrement the remaining count and report.
Returns the state at exit together with the propagating exception, if
any. -/
def runLoop (env : Env) (ds : CFDataset) (operation : String) (cl sv : Bool)
    (res : List String) (inc : Rat) (total : Nat) :
    List String → St → St × Option Err
  | [], st => (st, none)
  | period :: rest, st =>
    let progress := st.progress + 1
    let st :=
      { st with
          progress := progress
          resp := st.resp.addUpdate
            ("Processing file " ++ toString st.remaining ++ "/" ++ toString total)
            (some progress) }
    match ds.climo_periods.lookup period with
    | none => (st, some ⟨"KeyError", period⟩)
    | some _ =>
      let call := callFor env.workdir ds operation cl sv res period
      let st := { st with calls := st.calls ++ [call] }
      match env.create call with
      | .error e => (st, some e)
      | .ok written =>
        let st := { st with files := st.files ++ written }
        let progress := st.progress + inc
        let st :=
          { st with
              progress := progress
              remaining := st.remaining - 1
              resp := st.resp.addUpdate "Climo file created" (some progress) }
        runLoop env ds operation cl sv res inc total rest st

/-- The result of one request: whether the handler returned or an
exception aborted it, the response state at exit, the collaborator calls
made, and the working-directory contents at exit. -/
structure Outcome where
  result : Except Err Unit
  response : Response
  calls : List Call
  files : List String

/-- `GenerateClimos._handler`.  Mirrors the source line by line:
status update at 0; `collect_args`; if `dry_run`, delete the `output`
slot and assign `dry_output` from `dry_run_info` (whose unguarded
dataset-level lookups may abort the request); otherwise delete
`dry_output`, report `Processing <filepath>` with no percentage, open
the dataset (an open failure propagates), add 5 to progress, count the
matched periods, divide for the per-unit increment (`ZeroDivisionError`
when no period matches), run the loop, scan the working directory and
assign the MetaLink manifest; finally report completion at 100. -/
def handler (req : Request) (env : Env) : Outcome :=
  let progress : Rat := 0
  let resp : Response := { output := .unset, dry_output := .unset, updates := [] }
  let resp := resp.addUpdate "Starting Process" (some progress)
  match collect_args req with
  | (climo, resolutions, convert_longitudes, split_vars, _split_intervals, dry_run, operation) =>
  let filepath := req.filepath
  if dry_run then
    let resp := { resp with output := .removed }
    match dry_run_info env.openResult filepath climo with
    | .error e =>
      { result := .error e, response := resp, calls := [], files := env.workdirFiles }
    | .ok report =>
      let resp := { resp with dry_output := .set report }
      let resp := resp.addUpdate "Completed process" (some 100)
      { result := .ok (), response := resp, calls := [], files := env.workdirFiles }
  else
    let resp := { resp with dry_output := .removed }
    let resp := resp.addUpdate ("Processing " ++ filepath) none
    match env.openResult with
    | .error e =>
      { result := .error e, response := resp, calls := [], files := env.workdirFiles }
    | .ok input_file =>
      let progress := progress + 5
      let matched := matchedPeriods input_file climo
      let total_files := matched.length
      match pyDiv (95 - progress - total_files) total_files with
      | .error e =>
        { result := .error e, response := resp, calls := [], files := env.workdirFiles }
      | .ok progress_increment =>
        let st : St :=
          { progress := progress
            remaining := total_files
            resp := resp
            calls := []
            files := env.workdirFiles }
        match runLoop env input_file operation convert_longitudes split_vars
            resolutions progress_increment total_files matched st with
        | (st, some e) =>
          { result := .error e, response := st.resp, calls := st.calls, files := st.files }
        | (st, none) =>
          let climo_files := collect_climo_files st.files
          let resp := st.resp.addUpdate "Collecting output files" (some st.progress)
          let resp := { resp with output := .set (build_meta_link env.workdir climo_files) }
          let resp := resp.addUpdate "Completed process" (some 100)
          { result := .ok (), response := resp, calls := st.calls, files := st.files }

/-- The progress percentages passed to the successive `update_status`
calls of one request (calls that pass no percentage contribute none). -/
def progressValues (o : Outcome) : List Rat :=
  o.response.updates.filterMap Prod.snd

/-- The `update_status` trace one pass of the processing loop appends,
starting from progress `p` with `r` periods remaining. -/
def loopUpdates (inc : Rat) (total : Nat) : List String → Rat → Nat → List (String × Option Rat)
  | [], _, _ => []
  | _ :: rest, p, r =>
    ("Processing file " ++ toString r ++ "/" ++ toString total, some (p + 1)) ::
    ("Climo file created", some (p + 1 + inc)) ::
    loopUpdates inc total rest (p + 1 + inc) (r - 1)

/-- The files the collaborator writes over one pass of the loop (empty
for a call that raises). -/
def createdFiles (env : Env) (ds : CFDataset) (operation : String) (cl sv : Bool)
    (res : List String) : List String → List String
  | [] => []
  | p :: rest =>
    (match env.create (callFor env.workdir ds operation cl sv res p) with
      | .ok w => w
      | .error _ => []) ++ createdFiles env ds operation cl sv res rest

/-- A concrete dataset: a one-period catalog, full metadata except a
failing `model` attribute, and well-formed dataset-level attributes. -/
def dsFix : CFDataset :=
  { climo_periods := [("6190", ("19610101", "19901231"))]
    metadata := [("project", .ok "CMIP5"), ("institution", .ok "PCIC"),
      ("model", .error ⟨"AttributeError", "model"⟩), ("emissions", .ok "rcp85"),
      ("run", .ok "r1i1p1")]
    dependent_varnames := .ok "['tasmax']"
    time_resolution := .ok "daily"
    is_multi_year_mean := .ok "False" }

/-- A concrete processing request: periods `{"6190", "2080"}`, of which
only `"6190"` is in the catalog of `dsFix`. -/
def reqFix : Request :=
  { climo := ["6190", "2080"], operation := "mean", resolutions := ["yearly"]
    convert_longitudes := true, split_vars := true, split_intervals := true
    dry_run := false, filepath := "data.nc" }

/-- A concrete environment: `dsFix` opens, every collaborator call
writes one `.nc` file, and one non-matching file pre-exists. -/
def envFix : Env :=
  { openResult := .ok dsFix
    create := fun _ => .ok ["tasmax_climo.nc"]
    workdirFiles := ["notes.txt"]
    workdir := "/wd" }

/-- `dsFix` with a failing `time_resolution` accessor (one of the
lookups the source reads outside any `try`). -/
def dsBad5 : CFDataset :=
  { dsFix with time_resolution := .error ⟨"ValueError", "unparseable time axis"⟩ }

/-- A two-period catalog, for exercising a collaborator failure in the
middle of the loop (after an earlier success). -/
def dsFix2 : CFDataset :=
  { dsFix with
      climo_periods := [("6190", ("19610101", "19901231")),
        ("2080", ("20700101", "20991231"))] }

/-- An environment over `dsFix2` whose collaborator succeeds on the
first period's time range and raises on the second period's. -/
def envFix2 : Env :=
  { openResult := .ok dsFix2
    create := fun c =>
      if c.t_start == "20700101" then .error ⟨"ValueError", "boom"⟩ else .ok ["x.nc"]
    workdirFiles := []
    workdir := "/wd" }

lemma lookup_isSome_of_mem_keys {α : Type} (l : List (String × α)) (p : String)
    (h : p ∈ l.map Prod.fst) : (l.lookup p).isSome := by
  induction l with
  | nil => simp at h
  | cons hd tl ih =>
    simp only [List.map_cons, List.mem_cons] at h
    by_cases hp : p = hd.1
    · simp [List.lookup, hp]
    · have hm : p ∈ tl.map Prod.fst := by
        rcases h with h | h
        · exact absurd h hp
        · exact h
      have hb : (p == hd.1) = false := by simpa using hp
      simpa [List.lookup, hb] using ih hm

lemma mem_matched_mem_keys (ds : CFDataset) (climo : List String) (p : String)
    (h : p ∈ matchedPeriods ds climo) : p ∈ ds.climo_periods.map Prod.fst := by
  simpa [matchedPeriods] using (List.mem_of_mem_filter h)

/-- Specification of a run of the processing loop in which every period
resolves in the catalog and every collaborator call succeeds. -/
lemma runLoop_ok (env : Env) (ds : CFDataset) (operation : String) (cl sv : Bool)
    (res : List String) (inc : Rat) (total : Nat) (l : List String) (st : St)
    (hl : ∀ p ∈ l, (ds.climo_periods.lookup p).isSome)
    (hc : ∀ c, ∃ w, env.create c = .ok w) :
    runLoop env ds operation cl sv res inc total l st =
      ({ progress := st.progress + l.length * (1 + inc)
         remaining := st.remaining - l.length
         resp := { output := st.resp.output
                   dry_output := st.resp.dry_output
                   updates := st.resp.updates ++ loopUpdates inc total l st.progress st.remaining }
         calls := st.calls ++ l.map (callFor env.workdir ds operation cl sv res)
         files := st.files ++ createdFiles env ds operation cl sv res l }, none) := by
  induction l generalizing st with
  | nil =>
    simp [runLoop, loopUpdates, createdFiles]
  | cons p rest ih =>
    have hp : (ds.climo_periods.lookup p).isSome := hl p (by simp)
    rcases Option.isSome_iff_exists.mp hp with ⟨rng, hrng⟩
    rcases hc (callFor env.workdir ds operation cl sv res p) with ⟨w, hw⟩
    simp only [runLoop, hrng, hw]
    rw [ih _ (fun q hq => hl q (by simp [hq]))]
    simp only [Prod.mk.injEq, St.mk.injEq, Response.mk.injEq, Response.addUpdate, loopUpdates,
      createdFiles, hw, List.map_cons, List.length_cons, List.append_assoc,
      List.cons_append, List.nil_append, List.singleton_append, and_true, true_and]
    refine ⟨?_, ?_⟩
    · push_cast
      ring
    · omega

/-- Arithmetic of the progress schedule: after the last of `n` units,
progress has advanced from the baseline 5 by `n` fixed increments of 1
and `n` proportional increments of `(95 - 5 - n) / n`, landing at 95. -/
lemma loop_lands_at_95 (n : Nat) (hn : n ≠ 0) :
    (5 : Rat) + n * (1 + (95 - 5 - (n : Rat)) / n) = 95 := by
  have h : (n : Rat) ≠ 0 := Nat.cast_ne_zero.mpr hn
  field_simp

/-- Master specification of `_handler` on the processing path when the
dataset opens, at least one requested period matches the catalog, and
every collaborator call succeeds. -/
lemma handler_ok_spec (req : Request) (env : Env) (ds : CFDataset)
    (hdry : req.dry_run = false) (hopen : env.openResult = .ok ds)
    (hc : ∀ c, ∃ w, env.create c = .ok w)
    (hne : matchedPeriods ds req.climo ≠ []) :
    handler req env =
      { result := .ok ()
        response :=
          { output := .set (build_meta_link env.workdir (collect_climo_files
              (env.workdirFiles ++ createdFiles env ds req.operation req.convert_longitudes
                req.split_vars req.resolutions (matchedPeriods ds req.climo))))
            dry_output := .removed
            updates :=
              ("Starting Process", some 0) :: ("Processing " ++ req.filepath, none) ::
                (loopUpdates ((95 - 5 - ((matchedPeriods ds req.climo).length : Rat)) /
                    (matchedPeriods ds req.climo).length)
                  (matchedPeriods ds req.climo).length (matchedPeriods ds req.climo) 5
                  (matchedPeriods ds req.climo).length ++
                  [("Collecting output files", some 95), ("Completed process", some 100)]) }
        calls := (matchedPeriods ds req.climo).map
          (callFor env.workdir ds req.operation req.convert_longitudes req.split_vars
            req.resolutions)
        files := env.workdirFiles ++ createdFiles env ds req.operation req.convert_longitudes
          req.split_vars req.resolutions (matchedPeriods ds req.climo) } := by
  have hn : (matchedPeriods ds req.climo).length ≠ 0 := by
    simpa [List.length_eq_zero] using hne
  have hncast : ((matchedPeriods ds req.climo).length : Rat) ≠ 0 := Nat.cast_ne_zero.mpr hn
  have hdiv : pyDiv (95 - ((0 : Rat) + 5) - (matchedPeriods ds req.climo).length)
      (matchedPeriods ds req.climo).length =
      .ok ((95 - 5 - ((matchedPeriods ds req.climo).length : Rat)) /
        (matchedPeriods ds req.climo).length) := by
    rw [pyDiv, if_neg hncast]
    norm_num
  have hl : ∀ p ∈ matchedPeriods ds req.climo, (ds.climo_periods.lookup p).isSome :=
    fun p hp => lookup_isSome_of_mem_keys _ _ (mem_matched_mem_keys ds req.climo p hp)
  simp only [handler, collect_args, hdry, hopen, if_false, Bool.false_eq_true, hdiv]
  rw [runLoop_ok env ds req.operation req.convert_longitudes req.split_vars req.resolutions
    _ _ _ _ hl hc]
  simp only [Outcome.mk.injEq, Response.mk.injEq, Response.addUpdate, List.nil_append,
    List.append_assoc, List.cons_append, List.singleton_append, and_true, true_and]
  have h95 : (0 : Rat) + 5 + (matchedPeriods ds req.climo).length *
      (1 + (95 - 5 - ((matchedPeriods ds req.climo).length : Rat)) /
        (matchedPeriods ds req.climo).length) = 95 := by
    have h := loop_lands_at_95 (matchedPeriods ds req.climo).length hn
    linarith [h]
  rw [h95]
  norm_num

/-- Closed form of the progress values the loop reports: one pair per
unit `j` (0-based), `p + (j+1) + j*inc` before the unit and
`p + (j+1) + (j+1)*inc` after it. -/
lemma loopUpdates_values (inc : Rat) (total : Nat) :
    ∀ (l : List String) (p : Rat) (r : Nat),
      (loopUpdates inc total l p r).filterMap Prod.snd =
        (List.range l.length).flatMap fun j =>
          [p + ((j : Rat) + 1) + j * inc, p + ((j : Rat) + 1) + ((j : Rat) + 1) * inc] := by
  intro l
  induction l with
  | nil =>
    intro p r
    simp [loopUpdates]
  | cons q rest ih =>
    intro p r
    simp only [loopUpdates, List.filterMap_cons, List.length_cons,
      List.range_succ_eq_map, List.flatMap_cons, List.flatMap_map,
      List.cons_append, List.nil_append]
    rw [ih]
    congr 1
    · push_cast
      ring
    congr 1
    · push_cast
      ring
    congr 1
    funext j
    simp only [List.cons.injEq, and_true]
    refine ⟨by push_cast; ring, by push_cast; ring⟩

/-- The loop's reported progress values form a non-decreasing chain from
any lower bound of the entry progress, landing at
`p + l.length * (1 + inc)`. -/
lemma loopChain (inc : Rat) (hinc : 0 ≤ inc) (total : Nat) :
    ∀ (l : List String) (p q : Rat) (r : Nat) (tail : List Rat), q ≤ p →
      List.Chain (· ≤ ·) (p + l.length * (1 + inc)) tail →
      List.Chain (· ≤ ·) q
        ((loopUpdates inc total l p r).filterMap Prod.snd ++
          (p + l.length * (1 + inc)) :: tail) := by
  intro l
  induction l with
  | nil =>
    intro p q r tail hq h
    simp only [loopUpdates, List.filterMap_nil, List.nil_append, List.length_nil,
      Nat.cast_zero, zero_mul, add_zero] at h ⊢
    exact List.Chain.cons (by linarith) h
  | cons w rest ih =>
    intro p q r tail hq h
    simp only [List.length_cons] at h
    have hstep : p + ((rest.length : Rat) + 1) * (1 + inc) =
        p + 1 + inc + (rest.length : Rat) * (1 + inc) := by ring
    simp only [loopUpdates, List.filterMap_cons, List.length_cons, List.cons_append]
    push_cast at h ⊢
    rw [hstep] at h ⊢
    exact List.Chain.cons (by linarith)
      (List.Chain.cons (by linarith)
        (ih (p + 1 + inc) (p + 1 + inc) (r - 1) tail le_rfl h))

/-- The loop never changes the two named output slots. -/
lemma runLoop_frame (env : Env) (ds : CFDataset) (operation : String) (cl sv : Bool)
    (res : List String) (inc : Rat) (total : Nat) :
    ∀ (l : List String) (st : St),
      (runLoop env ds operation cl sv res inc total l st).1.resp.output = st.resp.output ∧
      (runLoop env ds operation cl sv res inc total l st).1.resp.dry_output =
        st.resp.dry_output := by
  intro l
  induction l with
  | nil =>
    intro st
    exact ⟨rfl, rfl⟩
  | cons p rest ih =>
    intro st
    simp only [runLoop]
    rcases hrng : ds.climo_periods.lookup p with _ | rng
    · exact ⟨rfl, rfl⟩
    · rcases hw : env.create (callFor env.workdir ds operation cl sv res p) with e | w
      · exact ⟨rfl, rfl⟩
      · simpa [Response.addUpdate] using ih _

/-- The calls the loop makes are a prefix of one call per period, in
period order; the prefix is full iff no exception aborted the loop. -/
lemma runLoop_takeCalls (env : Env) (ds : CFDataset) (operation : String) (cl sv : Bool)
    (res : List String) (inc : Rat) (total : Nat) :
    ∀ (l : List String) (st : St), ∃ m, m ≤ l.length ∧
      (runLoop env ds operation cl sv res inc total l st).1.calls =
        st.calls ++ (l.map (callFor env.workdir ds operation cl sv res)).take m ∧
      ((runLoop env ds operation cl sv res inc total l st).2 = none → m = l.length) := by
  intro l
  induction l with
  | nil =>
    intro st
    exact ⟨0, by simp [runLoop]⟩
  | cons p rest ih =>
    intro st
    simp only [runLoop]
    rcases hrng : ds.climo_periods.lookup p with _ | rng
    · exact ⟨0, by simp⟩
    · rcases hw : env.create (callFor env.workdir ds operation cl sv res p) with e | w
      · refine ⟨1, by simp, by simp, by simp⟩
      · obtain ⟨m, hm, hcalls, hfull⟩ := ih
          { progress := st.progress + 1 + inc
            remaining := st.remaining - 1
            resp := (st.resp.addUpdate
                ("Processing file " ++ toString st.remaining ++ "/" ++ toString total)
                (some (st.progress + 1))).addUpdate "Climo file created"
                (some (st.progress + 1 + inc))
            calls := st.calls ++ [callFor env.workdir ds operation cl sv res p]
            files := st.files ++ w }
        refine ⟨m + 1, Nat.succ_le_succ hm, ?_, ?_⟩
        · simp only [List.map_cons, List.take_succ_cons]
          rw [hcalls]
          simp [List.append_assoc]
        · simp only [List.length_cons]
          intro h
          have hm2 := hfull h
          omega

/-- Pointwise form of `runLoop_frame` for a known loop result. -/
lemma runLoop_preserves_outputs {env : Env} {ds : CFDataset} {operation : String}
    {cl sv : Bool} {res : List String} {inc : Rat} {total : Nat} {l : List String}
    {st st' : St} {oe : Option Err}
    (h : runLoop env ds operation cl sv res inc total l st = (st', oe)) :
    st'.resp.output = st.resp.output ∧ st'.resp.dry_output = st.resp.dry_output := by
  have hf := runLoop_frame env ds operation cl sv res inc total l st
  rw [h] at hf
  exact hf

/-- Pointwise form of `runLoop_takeCalls` for a known loop result. -/
lemma runLoop_calls_of_eq {env : Env} {ds : CFDataset} {operation : String}
    {cl sv : Bool} {res : List String} {inc : Rat} {total : Nat} {l : List String}
    {st st' : St} {oe : Option Err}
    (h : runLoop env ds operation cl sv res inc total l st = (st', oe)) :
    ∃ m, m ≤ l.length ∧
      st'.calls = st.calls ++ (l.map (callFor env.workdir ds operation cl sv res)).take m ∧
      (oe = none → m = l.length) := by
  obtain ⟨m, hm, hcalls, hfull⟩ := runLoop_takeCalls env ds operation cl sv res inc total l st
  rw [h] at hcalls hfull
  exact ⟨m, hm, hcalls, hfull⟩

/-- A collaborator failure at ANY position of the loop propagates: if
every period before `p` resolves and its call succeeds, and the call for
`p` raises `e`, the loop exits with exception `e`, having attempted
exactly one call per period up to and including `p` and leaving both
output slots untouched. -/
lemma runLoop_error_at (env : Env) (ds : CFDataset) (operation : String) (cl sv : Bool)
    (res : List String) (inc : Rat) (total : Nat) (p : String) (rest : List String)
    (e : Err) (hcr : env.create (callFor env.workdir ds operation cl sv res p) = .error e) :
    ∀ (pre : List String) (st : St),
      (∀ q ∈ pre ++ [p], (ds.climo_periods.lookup q).isSome) →
      (∀ q ∈ pre, ∃ w, env.create (callFor env.workdir ds operation cl sv res q) = .ok w) →
      ∃ st', runLoop env ds operation cl sv res inc total (pre ++ p :: rest) st =
          (st', some e) ∧
        st'.calls = st.calls ++ ((pre ++ [p]).map (callFor env.workdir ds operation cl sv res)) ∧
        st'.resp.output = st.resp.output ∧ st'.resp.dry_output = st.resp.dry_output := by
  intro pre
  induction pre with
  | nil =>
    intro st hl hpre
    obtain ⟨rng, hrng⟩ := Option.isSome_iff_exists.mp (hl p (by simp))
    refine ⟨{ progress := st.progress + 1
              remaining := st.remaining
              resp := st.resp.addUpdate
                ("Processing file " ++ toString st.remaining ++ "/" ++ toString total)
                (some (st.progress + 1))
              calls := st.calls ++ [callFor env.workdir ds operation cl sv res p]
              files := st.files }, ?_, by simp, by simp [Response.addUpdate],
      by simp [Response.addUpdate]⟩
    simp [runLoop, hrng, hcr]
  | cons q pre' ih =>
    intro st hl hpre
    obtain ⟨rng, hrng⟩ := Option.isSome_iff_exists.mp (hl q (by simp))
    obtain ⟨w, hw⟩ := hpre q (by simp)
    obtain ⟨st', hrun, hcalls, hout, hdry⟩ := ih
      { progress := st.progress + 1 + inc
        remaining := st.remaining - 1
        resp := (st.resp.addUpdate
            ("Processing file " ++ toString st.remaining ++ "/" ++ toString total)
            (some (st.progress + 1))).addUpdate "Climo file created"
            (some (st.progress + 1 + inc))
        calls := st.calls ++ [callFor env.workdir ds operation cl sv res q]
        files := st.files ++ w }
      (fun r hr => hl r (List.mem_cons_of_mem q hr))
      (fun r hr => hpre r (List.mem_cons_of_mem q hr))
    refine ⟨st', ?_, ?_, ?_, ?_⟩
    · simp only [List.cons_append, runLoop, hrng, hw]
      exact hrun
    · rw [hcalls]
      simp
    · rw [hout]
      simp [Response.addUpdate]
    · rw [hdry]
      simp [Response.addUpdate]

/-- Pointwise form of `runLoop_error_at` for a known loop result. -/
lemma runLoop_error_of_eq {env : Env} {ds : CFDataset} {operation : String}
    {cl sv : Bool} {res : List String} {inc : Rat} {total : Nat}
    {pre : List String} {p : String} {rest : List String} {st st' : St}
    {oe : Option Err} {e : Err}
    (h : runLoop env ds operation cl sv res inc total (pre ++ p :: rest) st = (st', oe))
    (hl : ∀ q ∈ pre ++ [p], (ds.climo_periods.lookup q).isSome)
    (hpre : ∀ q ∈ pre, ∃ w, env.create (callFor env.workdir ds operation cl sv res q) = .ok w)
    (hcr : env.create (callFor env.workdir ds operation cl sv res p) = .error e) :
    oe = some e ∧
    st'.calls = st.calls ++ ((pre ++ [p]).map (callFor env.workdir ds operation cl sv res)) ∧
    st'.resp.output = st.resp.output ∧ st'.resp.dry_output = st.resp.dry_output := by
  obtain ⟨st'', hrun, hcalls, hout, hdry⟩ :=
    runLoop_error_at env ds operation cl sv res inc total p rest e hcr pre st hl hpre
  rw [hrun] at h
  injection h with h1 h2
  subst h1
  exact ⟨h2.symm, hcalls, hout, hdry⟩

/-- C1.  The claim says a processing request whose requested periods
miss the catalog entirely completes at progress 100 with no collaborator
call and an empty manifest.  The source instead computes
`progress_increment = (95 - progress - total_files) / total_files` with
`total_files = 0` and raises `ZeroDivisionError`: the request aborts at
the last reported progress 0, with no call made, and the manifest output
never set.  This theorem evaluates the handler at such a request. -/
theorem C1_empty_intersection_zero_division :
    (handler { reqFix with climo := ["2080"] } envFix).result =
      .error ⟨"ZeroDivisionError", "division by zero"⟩ ∧
    (handler { reqFix with climo := ["2080"] } envFix).calls = [] ∧
    (handler { reqFix with climo := ["2080"] } envFix).response.output = OutSlot.unset ∧
    progressValues (handler { reqFix with climo := ["2080"] } envFix) = [0] :=
  ⟨rfl, rfl, rfl, rfl⟩

/-- C10.  Two requests identical except for `split_intervals` produce
identical outcomes: `collect_args` extracts the flag, but `_handler`
never reads it and `create_climo_files` is never given it, so the
result, the response (both outputs and every status update), the
collaborator calls and the working directory are all unchanged. -/
theorem C10_split_intervals_independent (req : Request) (env : Env) (b : Bool) :
    handler { req with split_intervals := b } env = handler req env := by
  cases req
  rfl

/-- C9.  In dry-run mode, when the dataset open raises, `dry_run_info`
catches the exception and the report is exactly the header followed by
the `<ErrorKind>: <message>` line — no attribute lines follow — and the
handler still completes at progress 100 with the report as the
`dry_output` value. -/
theorem C9_open_failure_reported (req : Request) (env : Env) (e : Err)
    (hdry : req.dry_run = true) (hopen : env.openResult = .error e) :
    (handler req env).result = .ok () ∧
    (handler req env).response.dry_output =
      OutSlot.set ("Dry Run\n" ++ "File: " ++ req.filepath ++ "\n" ++
        e.kind ++ ": " ++ e.msg ++ "\n") ∧
    (handler req env).response.output = OutSlot.removed ∧
    progressValues (handler req env) = [0, 100] := by
  simp [handler, collect_args, hdry, hopen, dry_run_info, progressValues, Response.addUpdate]

/-- C9 witness: `FileNotFoundError("x")` on open yields a report whose
text is literally `"Dry Run\nFile: data.nc\nFileNotFoundError: x\n"`. -/
theorem C9_witness :
    (handler { reqFix with dry_run := true }
        { envFix with openResult := .error ⟨"FileNotFoundError", "x"⟩ }).result = .ok () ∧
    (handler { reqFix with dry_run := true }
        { envFix with openResult := .error ⟨"FileNotFoundError", "x"⟩ }).response.dry_output =
      OutSlot.set ("Dry Run\n" ++ "File: " ++ "data.nc" ++ "\n" ++
        "FileNotFoundError" ++ ": " ++ "x" ++ "\n") ∧
    (handler { reqFix with dry_run := true }
        { envFix with openResult := .error ⟨"FileNotFoundError", "x"⟩ }).response.output =
      OutSlot.removed ∧
    progressValues (handler { reqFix with dry_run := true }
        { envFix with openResult := .error ⟨"FileNotFoundError", "x"⟩ }) = [0, 100] :=
  C9_open_failure_reported { reqFix with dry_run := true }
    { envFix with openResult := .error ⟨"FileNotFoundError", "x"⟩ }
    ⟨"FileNotFoundError", "x"⟩ rfl rfl

/-- C5 counterexample.  The claim says every diagnostic attribute lookup
after a successful open is independently failure-guarded, including the
dataset-level `time_resolution`.  In the source only the five provenance
lookups sit inside `try`/`except`; a failing `time_resolution` raises
out of `dry_run_info`, so no report is produced at all (the request
aborts with the exception and the dry output is never assigned), instead
of a report with one line per attribute. -/
theorem C5_counterexample_unguarded_dataset_attr :
    dry_run_info (.ok dsBad5) "data.nc" ["6190"] =
      .error ⟨"ValueError", "unparseable time axis"⟩ ∧
    (handler { reqFix with dry_run := true }
        { envFix with openResult := .ok dsBad5 }).result =
      .error ⟨"ValueError", "unparseable time axis"⟩ ∧
    (handler { reqFix with dry_run := true }
        { envFix with openResult := .ok dsBad5 }).response.dry_output = OutSlot.unset :=
  ⟨rfl, rfl, rfl⟩

/-- C5 (amended).  After a successful open, the five provenance
attribute lookups (project, institution, model, emissions, run) are each
independently failure-guarded: whatever the metadata lookups return, the
report is produced with exactly one `attrLine` per provenance attribute,
a failing lookup rendering as `"<attr>: <ErrorKind>: <message>\n"`.  The
three dataset-level lookups (dependent_varnames, time_resolution,
is_multi_year_mean) are not guarded: the report only exists when they
succeed (their failure propagates, see the counterexample). -/
theorem C5_provenance_lookups_guarded (ds : CFDataset) (fp : String)
    (climo : List String) (dv tr mym : String)
    (h1 : ds.dependent_varnames = .ok dv) (h2 : ds.time_resolution = .ok tr)
    (h3 : ds.is_multi_year_mean = .ok mym) :
    dry_run_info (.ok ds) fp climo =
      .ok ("Dry Run\n" ++ "File: " ++ fp ++ "\n"
        ++ "climo_periods: " ++ String.intercalate ", " (matchedPeriods ds climo) ++ "\n"
        ++ String.join (provenanceAttrs.map fun attr => attrLine attr (metaLookup ds attr))
        ++ "dependent_varnames: " ++ dv ++ "\n"
        ++ "time_resolution: " ++ tr ++ "\n"
        ++ "is_multi_year_mean: " ++ mym ++ "\n") ∧
    (∀ attr e, attrLine attr (.error e) = attr ++ ": " ++ e.kind ++ ": " ++ e.msg ++ "\n") := by
  refine ⟨?_, fun attr e => rfl⟩
  simp [dry_run_info, h1, h2, h3, String.append_assoc]

/-- C5 witness: on `dsFix`, whose `model` metadata lookup fails while
the rest succeed, the report is still produced with all five provenance
lines, the failing one rendered inline. -/
theorem C5_witness :
    dry_run_info (.ok dsFix) "data.nc" ["6190", "2080"] =
      .ok ("Dry Run\n" ++ "File: " ++ "data.nc" ++ "\n"
        ++ "climo_periods: " ++ String.intercalate ", " (matchedPeriods dsFix ["6190", "2080"]) ++ "\n"
        ++ String.join (provenanceAttrs.map fun attr => attrLine attr (metaLookup dsFix attr))
        ++ "dependent_varnames: " ++ "['tasmax']" ++ "\n"
        ++ "time_resolution: " ++ "daily" ++ "\n"
        ++ "is_multi_year_mean: " ++ "False" ++ "\n") ∧
    (∀ attr e, attrLine attr (.error e) = attr ++ ": " ++ e.kind ++ ": " ++ e.msg ++ "\n") :=
  C5_provenance_lookups_guarded dsFix "data.nc" ["6190", "2080"]
    "['tasmax']" "daily" "False" rfl rfl rfl

/-- C7.  The manifest built from a scan of the working directory has
exactly one entry per listed name ending in `.nc` — labelled with the
filename, category `Climatology`, the fixed NetCDF format, located at
`workdir/name` — and no entry for any other listed name. -/
theorem C7_manifest_exact (workdir : String) (files : List String)
    (hnd : files.Nodup) :
    (build_meta_link workdir (collect_climo_files files)).files =
      (files.filter (fun f => f.endsWith ".nc")).map (fun f =>
        { label := f, category := "Climatology", format := "NETCDF",
          path := workdir ++ "/" ++ f }) ∧
    (∀ f ∈ files, f.endsWith ".nc" = true →
      (build_meta_link workdir (collect_climo_files files)).files.countP
        (fun e => e.label == f) = 1) ∧
    (∀ f, f.endsWith ".nc" = false →
      (build_meta_link workdir (collect_climo_files files)).files.countP
        (fun e => e.label == f) = 0) := by
  refine ⟨rfl, ?_, ?_⟩
  · intro f hf hnc
    simp only [build_meta_link, collect_climo_files, List.countP_map]
    have hcount : (files.filter (fun g => g.endsWith ".nc")).count f = files.count f := by
      exact List.count_filter hnc
    have hone : files.count f = 1 := List.count_eq_one_of_mem hnd hf
    simpa [List.count, Function.comp] using hcount.trans hone
  · intro f hnc
    simp only [build_meta_link, collect_climo_files, List.countP_map, List.countP_eq_zero]
    intro a ha
    simp only [Function.comp] at *
    rcases List.mem_filter.mp ha with ⟨-, hend⟩
    intro hbeq
    rw [show a = f from by simpa using hbeq] at hend
    rw [hnc] at hend
    exact Bool.false_ne_true hend

/-- C7 witness: a directory listing with two `.nc` files and one other
entry yields a manifest with exactly the two `.nc` entries. -/
theorem C7_witness :
    (build_meta_link "/wd" (collect_climo_files ["a.nc", "notes.txt", "b.nc"])).files =
      (["a.nc", "notes.txt", "b.nc"].filter (fun f => f.endsWith ".nc")).map (fun f =>
        { label := f, category := "Climatology", format := "NETCDF",
          path := "/wd" ++ "/" ++ f }) ∧
    (∀ f ∈ ["a.nc", "notes.txt", "b.nc"], f.endsWith ".nc" = true →
      (build_meta_link "/wd" (collect_climo_files ["a.nc", "notes.txt", "b.nc"])).files.countP
        (fun e => e.label == f) = 1) ∧
    (∀ f, f.endsWith ".nc" = false →
      (build_meta_link "/wd" (collect_climo_files ["a.nc", "notes.txt", "b.nc"])).files.countP
        (fun e => e.label == f) = 0) :=
  C7_manifest_exact "/wd" ["a.nc", "notes.txt", "b.nc"] (by decide)

/-- C2 counterexample.  On a completing processing request with one
matched period, the progress values passed to the status updates are
`[0, 6, 95, 95, 100]`: the final in-loop update lands at 95 and the
`Collecting output files` update repeats 95, so the sequence is NOT
strictly increasing as claimed. -/
theorem C2_counterexample_progress_repeats_95 :
    (handler reqFix envFix).result = .ok () ∧
    progressValues (handler reqFix envFix) = [0, 6, 95, 95, 100] ∧
    ¬ List.Chain' (· < ·) (progressValues (handler reqFix envFix)) := by
  have hmp : matchedPeriods dsFix reqFix.climo = ["6190"] := by decide
  have hspec := handler_ok_spec reqFix envFix dsFix rfl rfl
    (fun _ => ⟨["tasmax_climo.nc"], rfl⟩) (by decide)
  rw [hmp] at hspec
  have hV : progressValues (handler reqFix envFix) = [0, 6, 95, 95, 100] := by
    rw [hspec]
    simp [progressValues, loopUpdates]
    norm_num
  refine ⟨by rw [hspec], hV, ?_⟩
  rw [hV]
  intro h
  norm_num [List.chain'_cons] at h

/-- C2 (amended).  For every completing processing request with a
non-empty matched-period set (of size at most the transport bound 6),
the progress values passed to the successive status updates are
non-decreasing — strictly increasing through the loop, with the
output-collection update repeating the final in-loop value 95 — and the
final reported value is exactly 100. -/
theorem C2_progress_monotone_final_100 (req : Request) (env : Env) (ds : CFDataset)
    (hdry : req.dry_run = false) (hopen : env.openResult = .ok ds)
    (hc : ∀ c, ∃ w, env.create c = .ok w)
    (hne : matchedPeriods ds req.climo ≠ [])
    (hn6 : (matchedPeriods ds req.climo).length ≤ 6) :
    List.Chain' (· ≤ ·) (progressValues (handler req env)) ∧
    (progressValues (handler req env)).getLast? = some 100 := by
  have hn : (matchedPeriods ds req.climo).length ≠ 0 := by
    simpa [List.length_eq_zero] using hne
  have hinc : 0 ≤ (95 - 5 - ((matchedPeriods ds req.climo).length : Rat)) /
      (matchedPeriods ds req.climo).length := by
    apply div_nonneg
    · have h6 : ((matchedPeriods ds req.climo).length : Rat) ≤ 6 := by exact_mod_cast hn6
      linarith
    · positivity
  have h95 : (5 : Rat) + (matchedPeriods ds req.climo).length *
      (1 + (95 - 5 - ((matchedPeriods ds req.climo).length : Rat)) /
        (matchedPeriods ds req.climo).length) = 95 :=
    loop_lands_at_95 (matchedPeriods ds req.climo).length hn
  have hV : progressValues (handler req env) =
      0 :: ((loopUpdates ((95 - 5 - ((matchedPeriods ds req.climo).length : Rat)) /
          (matchedPeriods ds req.climo).length) (matchedPeriods ds req.climo).length
          (matchedPeriods ds req.climo) 5 (matchedPeriods ds req.climo).length).filterMap
          Prod.snd ++ [95, 100]) := by
    rw [handler_ok_spec req env ds hdry hopen hc hne]
    simp [progressValues]
  constructor
  · rw [hV]
    show List.Chain (· ≤ ·) 0 _
    have htail : List.Chain (· ≤ ·) ((5 : Rat) +
        (matchedPeriods ds req.climo).length *
          (1 + (95 - 5 - ((matchedPeriods ds req.climo).length : Rat)) /
            (matchedPeriods ds req.climo).length)) [100] := by
      rw [h95]
      exact List.Chain.cons (by norm_num) List.Chain.nil
    have hch := loopChain _ hinc (matchedPeriods ds req.climo).length
      (matchedPeriods ds req.climo) 5 0 (matchedPeriods ds req.climo).length [100]
      (by norm_num) htail
    rw [h95] at hch
    exact hch
  · rw [hV]
    have hsplit : (0 : Rat) :: ((loopUpdates ((95 - 5 -
        ((matchedPeriods ds req.climo).length : Rat)) /
          (matchedPeriods ds req.climo).length) (matchedPeriods ds req.climo).length
          (matchedPeriods ds req.climo) 5 (matchedPeriods ds req.climo).length).filterMap
          Prod.snd ++ [95, 100]) =
        (0 :: ((loopUpdates ((95 - 5 - ((matchedPeriods ds req.climo).length : Rat)) /
          (matchedPeriods ds req.climo).length) (matchedPeriods ds req.climo).length
          (matchedPeriods ds req.climo) 5 (matchedPeriods ds req.climo).length).filterMap
          Prod.snd ++ [95])) ++ [100] := by
      simp
    rw [hsplit, List.getLast?_concat]

/-- C2 witness: the amended property at the concrete one-period
fixture. -/
theorem C2_witness :
    List.Chain' (· ≤ ·) (progressValues (handler reqFix envFix)) ∧
    (progressValues (handler reqFix envFix)).getLast? = some 100 :=
  C2_progress_monotone_final_100 reqFix envFix dsFix rfl rfl
    (fun _ => ⟨["tasmax_climo.nc"], rfl⟩) (by decide) (by decide)

/-- C3.  On a completing processing path with `n` matched periods
(1 ≤ n ≤ 6), progress starts from the fixed baseline 5 set after the
dataset is opened; unit `j` (0-based) reports `5 + (j+1) + j*inc` before
the computation (the fixed +1) and `5 + (j+1) + (j+1)*inc` after it (the
proportional `inc = (95 - 5 - n)/n`); after the final unit progress is
exactly 95, and the band up to 100 is used only by output collection
(at 95) and completion (at 100). -/
theorem C3_progress_schedule (req : Request) (env : Env) (ds : CFDataset)
    (hdry : req.dry_run = false) (hopen : env.openResult = .ok ds)
    (hc : ∀ c, ∃ w, env.create c = .ok w)
    (n : Nat) (hn : n = (matchedPeriods ds req.climo).length)
    (hn1 : 1 ≤ n) (hn6 : n ≤ 6)
    (inc : Rat) (hinc : inc = (95 - 5 - (n : Rat)) / n) :
    progressValues (handler req env) =
      0 :: (((List.range n).flatMap fun j =>
        [5 + ((j : Rat) + 1) + j * inc, 5 + ((j : Rat) + 1) + ((j : Rat) + 1) * inc])
        ++ [95, 100]) := by
  have hne : matchedPeriods ds req.climo ≠ [] := by
    intro h
    rw [h] at hn
    simp at hn
    omega
  rw [handler_ok_spec req env ds hdry hopen hc hne]
  simp only [progressValues, List.filterMap_cons, List.filterMap_append]
  rw [loopUpdates_values]
  rw [← hn, ← hinc]
  rfl

/-- C3 witness: the schedule at the one-period fixture
(`n = 1`, `inc = 89`). -/
theorem C3_witness :
    progressValues (handler reqFix envFix) =
      0 :: (((List.range 1).flatMap fun j =>
        [5 + ((j : Rat) + 1) + j * ((95 - 5 - ((1 : Nat) : Rat)) / ((1 : Nat) : Rat)),
         5 + ((j : Rat) + 1) + ((j : Rat) + 1) *
           ((95 - 5 - ((1 : Nat) : Rat)) / ((1 : Nat) : Rat))])
        ++ [95, 100]) :=
  C3_progress_schedule reqFix envFix dsFix rfl rfl
    (fun _ => ⟨["tasmax_climo.nc"], rfl⟩) 1 (by decide) (by decide) (by decide)
    ((95 - 5 - ((1 : Nat) : Rat)) / ((1 : Nat) : Rat)) rfl

/-- C4 counterexample.  The claim says every collaborator invocation
receives the three processing flags including `split_intervals`.  The
source passes only `convert_longitudes` and `split_vars`: two requests
differing exactly in `split_intervals` produce identical (non-empty)
call sequences, so the invocation cannot be receiving that flag. -/
theorem C4_counterexample_split_intervals_not_passed :
    (handler reqFix envFix).calls =
      (handler { reqFix with split_intervals := false } envFix).calls ∧
    (handler reqFix envFix).calls.length = 1 ∧
    reqFix.split_intervals = true ∧
    ({ reqFix with split_intervals := false } : Request).split_intervals = false :=
  ⟨rfl, rfl, rfl, rfl⟩

/-- C4 (amended).  On a completing processing path the collaborator is
invoked exactly once per period of `matched = requested ∩ available`
(`matched` inherits distinctness from the catalog keys), and each
invocation receives the working directory, the open dataset handle, the
operation, the time range resolved from the catalog for that period, the
`convert_longitudes` and `split_vars` flags and the resolutions set —
but not `split_intervals` (see the counterexample). -/
theorem C4_one_call_per_matched_period (req : Request) (env : Env) (ds : CFDataset)
    (hdry : req.dry_run = false) (hopen : env.openResult = .ok ds)
    (hc : ∀ c, ∃ w, env.create c = .ok w)
    (hne : matchedPeriods ds req.climo ≠ [])
    (hkeys : (ds.climo_periods.map Prod.fst).Nodup) :
    (handler req env).calls = (matchedPeriods ds req.climo).map
      (callFor env.workdir ds req.operation req.convert_longitudes req.split_vars
        req.resolutions) ∧
    (matchedPeriods ds req.climo).Nodup := by
  refine ⟨?_, List.Nodup.filter _ hkeys⟩
  rw [handler_ok_spec req env ds hdry hopen hc hne]

/-- C4 witness: at the fixture, exactly one call, for the one matched
period. -/
theorem C4_witness :
    (handler reqFix envFix).calls = (matchedPeriods dsFix reqFix.climo).map
      (callFor envFix.workdir dsFix reqFix.operation reqFix.convert_longitudes
        reqFix.split_vars reqFix.resolutions) ∧
    (matchedPeriods dsFix reqFix.climo).Nodup :=
  C4_one_call_per_matched_period reqFix envFix dsFix rfl rfl
    (fun _ => ⟨["tasmax_climo.nc"], rfl⟩) (by decide) (by decide)

/-- C6.  Every request that completes sets exactly one of the two named
outputs and explicitly removes the other: in dry-run mode the `output`
slot is deleted, the diagnostic report is assigned to `dry_output`, and
no collaborator call is ever made; otherwise `dry_output` is deleted and
the manifest is assigned to `output`. -/
theorem C6_exactly_one_output (req : Request) (env : Env) :
    (handler req env).result = .ok () →
    ((req.dry_run = true →
        (handler req env).response.output = OutSlot.removed ∧
        (∃ r, (handler req env).response.dry_output = OutSlot.set r) ∧
        (handler req env).calls = []) ∧
      (req.dry_run = false →
        (handler req env).response.dry_output = OutSlot.removed ∧
        ∃ m, (handler req env).response.output = OutSlot.set m)) := by
  rcases hd : req.dry_run
  · simp only [handler, collect_args, hd, Bool.false_eq_true, if_false]
    split
    · intro h
      simp at h
    · split
      · intro h
        simp at h
      · split
        · intro h
          simp at h
        · rename_i st heq
          intro _
          refine ⟨by simp, fun _ => ⟨?_, ⟨_, rfl⟩⟩⟩
          have hout := (runLoop_preserves_outputs heq).2
          simpa [Response.addUpdate] using hout
  · simp only [handler, collect_args, hd, if_true]
    split
    · intro h
      simp at h
    · intro _
      exact ⟨fun _ => ⟨rfl, ⟨_, rfl⟩, rfl⟩, by simp⟩

/-- C6 witness: at the dry-run fixture the request completes, removes
the manifest slot, sets the report, and makes no call. -/
theorem C6_witness :
    (({ reqFix with dry_run := true } : Request).dry_run = true →
      (handler { reqFix with dry_run := true } envFix).response.output = OutSlot.removed ∧
      (∃ r, (handler { reqFix with dry_run := true } envFix).response.dry_output =
        OutSlot.set r) ∧
      (handler { reqFix with dry_run := true } envFix).calls = []) ∧
    (({ reqFix with dry_run := true } : Request).dry_run = false →
      (handler { reqFix with dry_run := true } envFix).response.dry_output =
        OutSlot.removed ∧
      ∃ m, (handler { reqFix with dry_run := true } envFix).response.output =
        OutSlot.set m) :=
  C6_exactly_one_output { reqFix with dry_run := true } envFix rfl

/-- C8.  On the processing path no exception is caught: an open failure
propagates as the request's result with no collaborator call made and no
manifest set; the calls made are always a prefix of one call per matched
period (at most one attempt per period, no retry); any abort leaves the
manifest output unset; and a collaborator failure on ANY matched period
— after any run of earlier successful calls — propagates verbatim as the
request's result, with exactly one attempted call per period up to and
including the failing one and the manifest never set. -/
theorem C8_errors_propagate (req : Request) (env : Env) (ds : CFDataset)
    (hdry : req.dry_run = false) :
    (∀ e, env.openResult = .error e →
      (handler req env).result = .error e ∧ (handler req env).calls = [] ∧
      (handler req env).response.output = OutSlot.unset) ∧
    (env.openResult = .ok ds →
      (∃ m, m ≤ (matchedPeriods ds req.climo).length ∧
        (handler req env).calls = ((matchedPeriods ds req.climo).map
          (callFor env.workdir ds req.operation req.convert_longitudes req.split_vars
            req.resolutions)).take m) ∧
      (∀ e, (handler req env).result = .error e →
        (handler req env).response.output = OutSlot.unset) ∧
      (∀ pre p rest e, matchedPeriods ds req.climo = pre ++ p :: rest →
        (∀ q ∈ pre, ∃ w, env.create (callFor env.workdir ds req.operation
          req.convert_longitudes req.split_vars req.resolutions q) = .ok w) →
        env.create (callFor env.workdir ds req.operation req.convert_longitudes
          req.split_vars req.resolutions p) = .error e →
        (handler req env).result = .error e ∧
        (handler req env).calls = (pre ++ [p]).map (callFor env.workdir ds req.operation
          req.convert_longitudes req.split_vars req.resolutions) ∧
        (handler req env).response.output = OutSlot.unset)) := by
  constructor
  · intro e hopen
    simp [handler, collect_args, hdry, hopen, Response.addUpdate]
  · intro hopen
    simp only [handler, collect_args, hdry, hopen, Bool.false_eq_true, if_false]
    split
    · rename_i e0 heq
      have hz : ((matchedPeriods ds req.climo).length : Rat) = 0 := by
        by_contra hnz
        simp [pyDiv, hnz] at heq
      have hmz : matchedPeriods ds req.climo = [] := by
        have hlen : (matchedPeriods ds req.climo).length = 0 := by exact_mod_cast hz
        simpa [List.length_eq_zero] using hlen
      refine ⟨⟨0, by simp, by simp⟩, fun e h => rfl, ?_⟩
      intro pre p rest e hmr hpre hcr
      rw [hmz] at hmr
      simp at hmr
    · rename_i inc hdiv
      split
      · rename_i st e0 heq
        obtain ⟨m, hm, hcalls, -⟩ := runLoop_calls_of_eq heq
        refine ⟨⟨m, hm, by simpa using hcalls⟩, fun e h => ?_, ?_⟩
        · have hout := (runLoop_preserves_outputs heq).1
          simpa [Response.addUpdate] using hout
        · intro pre p rest e hmr hpre hcr
          rw [hmr] at heq
          have hl : ∀ q ∈ pre ++ [p], (ds.climo_periods.lookup q).isSome := by
            intro q hq
            apply lookup_isSome_of_mem_keys
            apply mem_matched_mem_keys ds req.climo
            rw [hmr]
            rcases List.mem_append.mp hq with h | h
            · exact List.mem_append.mpr (Or.inl h)
            · simp only [List.mem_singleton] at h
              subst h
              exact List.mem_append.mpr (Or.inr (by simp))
          obtain ⟨hoe, hcalls', hout', -⟩ := runLoop_error_of_eq heq hl hpre hcr
          injection hoe with h3
          refine ⟨by rw [h3], ?_, ?_⟩
          · rw [hcalls']
            simp
          · rw [hout']
            simp [Response.addUpdate]
      · rename_i st heq
        obtain ⟨m, hm, hcalls, hfull⟩ := runLoop_calls_of_eq heq
        refine ⟨⟨m, hm, by simpa using hcalls⟩, fun e h => by simp at h, ?_⟩
        intro pre p rest e hmr hpre hcr
        exfalso
        rw [hmr] at heq
        have hl : ∀ q ∈ pre ++ [p], (ds.climo_periods.lookup q).isSome := by
          intro q hq
          apply lookup_isSome_of_mem_keys
          apply mem_matched_mem_keys ds req.climo
          rw [hmr]
          rcases List.mem_append.mp hq with h | h
          · exact List.mem_append.mpr (Or.inl h)
          · simp only [List.mem_singleton] at h
            subst h
            exact List.mem_append.mpr (Or.inr (by simp))
        obtain ⟨hoe, -, -, -⟩ := runLoop_error_of_eq heq hl hpre hcr
        simp at hoe

/-- C8 witness: two matched periods, the collaborator succeeding on the
first and raising on the second — the mid-loop failure propagates as the
request's result, exactly two calls were attempted (one per period, in
order, up to the failing one), and the manifest output is never set. -/
theorem C8_witness :
    (handler reqFix envFix2).result = .error ⟨"ValueError", "boom"⟩ ∧
    (handler reqFix envFix2).calls =
      (["6190"] ++ ["2080"]).map (callFor envFix2.workdir dsFix2 reqFix.operation
        reqFix.convert_longitudes reqFix.split_vars reqFix.resolutions) ∧
    (handler reqFix envFix2).response.output = OutSlot.unset := by
  have h := ((C8_errors_propagate reqFix envFix2 dsFix2 rfl).2 rfl).2.2
  exact h ["6190"] "2080" [] ⟨"ValueError", "boom"⟩ rfl
    (by
      intro q hq
      simp only [List.mem_singleton] at hq
      subst hq
      exact ⟨["x.nc"], rfl⟩)
    rfl
